import Mathlib

/-!
Verification of the DataForSEO MCP server's tool-registry and dual-transport
invocation layer.

The development shallowly embeds the relevant TypeScript source:
* `src/api/tools.ts` (`registerTool`, `registerTaskTool`) — the single
  registration choke point that wraps every tool handler;
* `src/server-http.ts` (`getToolsList`, `app.post('/mcp')`,
  `app.get('/tools')`) — the HTTP/JSON-RPC bridge.

JavaScript runtime values are modelled by an inductive `Json` type; `undefined`
is modelled by `Option Json = none` wherever a value or an object field may be
absent (in particular, `JSON.stringify` drops object members whose value is
`undefined`, which the embedding reflects by building field lists
conditionally).  Machine-level details that the claims do not touch
(prototype chains, property access on primitives, proxies) are outside the
model; every handler is an explicit Lean function and a thrown JavaScript
value is an explicit `Thrown` value carried in `Except`.
-/

set_option autoImplicit false

namespace DataForSeoMcp

/-- A JSON / JavaScript data value.  Object members are kept in insertion
order, as JavaScript objects (and `JSON.stringify`) do. -/
inductive Json where
  | null
  | bool (b : Bool)
  | num (n : Int)
  | str (s : String)
  | arr (elems : List Json)
  | obj (fields : List (String × Json))

/-- JavaScript truthiness of a value (`false`, `0`, `""`, `null` are falsy;
every object and array is truthy). -/
def jsTruthy : Json → Bool
  | .null => false
  | .bool b => b
  | .num n => n != 0
  | .str s => s != ""
  | .arr _ => true
  | .obj _ => true

/-- Truthiness of a possibly-`undefined` value (`undefined` is falsy). -/
def jsTruthyOpt : Option Json → Bool
  | none => false
  | some v => jsTruthy v

/-- Look up a field of a JavaScript object (first occurrence of the key);
`none` models `undefined`. -/
def jsGetField (fields : List (String × Json)) (k : String) : Option Json :=
  (fields.find? (fun p => p.1 = k)).map (fun p => p.2)

/-- Property access `v[k]` on an arbitrary value: `undefined` unless `v` is an
object carrying the field. -/
def jsField (v : Json) (k : String) : Option Json :=
  match v with
  | .obj fields => jsGetField fields k
  | _ => none

/-- Follow a chain of property accesses. -/
def jsPath (v : Json) : List String → Option Json
  | [] => some v
  | k :: ks =>
    match jsField v k with
    | some w => jsPath w ks
    | none => none

/-- JavaScript property assignment `o[k] = v`: replaces the value of an
existing key in place (keys of a JavaScript object are unique, so replacing
the first occurrence is exact), otherwise appends the key at the end. -/
def setField : List (String × Json) → String → Json → List (String × Json)
  | [], k, v => [(k, v)]
  | (k', v') :: rest, k, v =>
    if k' = k then (k, v) :: rest else (k', v') :: setField rest k v

/-- JavaScript `delete o[k]`. -/
def deleteField (fields : List (String × Json)) (k : String) :
    List (String × Json) :=
  fields.filter (fun p => p.1 ≠ k)

/-! ### `JSON.stringify(v, null, 2)`

The HTTP bridge and the registration wrapper serialize every handler result
with `JSON.stringify(value, null, 2)`, i.e. pretty-printed with a two-space
indent.  The functions below implement the ECMA-262 `SerializeJSON*`
algorithms for that fixed gap. -/

/-- Lower-case hexadecimal digit. -/
def hexDigitChar (n : Nat) : Char :=
  if n < 10 then Char.ofNat (48 + n) else Char.ofNat (87 + n)

/-- The escape `JSON.stringify` applies to one character of a string. -/
def escChar (c : Char) : String :=
  if c = '"' then "\\\""
  else if c = '\\' then "\\\\"
  else if c = '\x08' then "\\b"
  else if c = '\x09' then "\\t"
  else if c = '\x0a' then "\\n"
  else if c = '\x0c' then "\\f"
  else if c = '\x0d' then "\\r"
  else if c.toNat < 32 then
    "\\u00" ++ String.singleton (hexDigitChar (c.toNat / 16)) ++
      String.singleton (hexDigitChar (c.toNat % 16))
  else String.singleton c

/-- The JSON quotation of a string. -/
def jquote (s : String) : String :=
  "\"" ++ String.join (s.data.map escChar) ++ "\""

/-- `2 * d` spaces: the indentation at nesting depth `d` for gap `"  "`. -/
def pad (d : Nat) : String :=
  String.mk (List.replicate (2 * d) ' ')

mutual

/-- `JSON.stringify(v, null, 2)` at nesting depth `d`. -/
def stringifyAt : Nat → Json → String
  | _, .null => "null"
  | _, .bool true => "true"
  | _, .bool false => "false"
  | _, .num n => toString n
  | _, .str s => jquote s
  | _, .arr [] => "[]"
  | d, .arr (x :: xs) =>
      "[\n" ++ pad (d + 1) ++ stringifyElems (d + 1) x xs ++ "\n" ++ pad d ++ "]"
  | _, .obj [] => "\x7b\x7d"
  | d, .obj (f :: fs) =>
      "\x7b\n" ++ pad (d + 1) ++ stringifyMems (d + 1) f fs ++ "\n" ++ pad d ++ "\x7d"
termination_by _d v => sizeOf v

/-- Comma-and-newline separated array elements at depth `d`. -/
def stringifyElems : Nat → Json → List Json → String
  | d, x, [] => stringifyAt d x
  | d, x, y :: ys => stringifyAt d x ++ ",\n" ++ pad d ++ stringifyElems d y ys
termination_by _d x xs => sizeOf x + sizeOf xs

/-- Comma-and-newline separated object members at depth `d`. -/
def stringifyMems : Nat → String × Json → List (String × Json) → String
  | d, (k, v), [] => jquote k ++ ": " ++ stringifyAt d v
  | d, (k, v), g :: gs =>
      jquote k ++ ": " ++ stringifyAt d v ++ ",\n" ++ pad d ++
        stringifyMems d g gs
termination_by _d f fs => sizeOf f + sizeOf fs

end

/-- `JSON.stringify(v, null, 2)`. -/
def jsonStringify2 (v : Json) : String :=
  stringifyAt 0 v

mutual

/-- JavaScript `String(v)` (used by the bridge's template literals in error
messages). -/
def jsToString : Json → String
  | .null => "null"
  | .bool true => "true"
  | .bool false => "false"
  | .num n => toString n
  | .str s => s
  | .arr xs => jsArrElems xs
  | .obj _ => "[object Object]"
termination_by v => sizeOf v

/-- `Array.prototype.toString`: elements joined with `","`, `null` elements
rendered as the empty string. -/
def jsArrElems : List Json → String
  | [] => ""
  | [.null] => ""
  | [x] => jsToString x
  | .null :: xs => "," ++ jsArrElems xs
  | x :: xs => jsToString x ++ "," ++ jsArrElems xs
termination_by xs => sizeOf xs

end

/-! ### Provider client, thrown values and the MCP content envelope -/

/-- The DataForSEO provider client (`src/api/client.ts`): one base URL and
credential pair, exposing `get`/`post`.  Handlers only ever forward calls to
it, so it is modelled by its two request functions. -/
structure DataForSeoClient where
  get : String → Except Json Json
  post : String → Json → Except Json Json

/-- A thrown JavaScript value: either an `Error` instance (with `message` and
optional `stack`) or any other value (`none` models `throw undefined`). -/
inductive Thrown where
  | jsError (message : String) (stack : Option String)
  | other (v : Option Json)

/-- One element of an MCP result's `content` array. -/
structure ContentBlock where
  type : String
  text : String

/-- The MCP content envelope returned by every wrapped tool handler. -/
structure ToolResult where
  content : List ContentBlock

/-- The JavaScript object a `ContentBlock` denotes. -/
def contentBlockJson (b : ContentBlock) : Json :=
  .obj [("type", .str b.type), ("text", .str b.text)]

/-- The JavaScript object a `ToolResult` denotes. -/
def toolResultJson (r : ToolResult) : Json :=
  .obj [("content", .arr (r.content.map contentBlockJson))]

/-! ### `registerTool` (src/api/tools.ts)

`registerTool(server, name, schema, handler)` passes `server.tool` a wrapped
async callback.  The callback resolves the client from the SDK context object
(falling back to the process-wide `globalThis.__dataForSeoClient`), invokes
the raw handler, and converts both the success value and any thrown error
into a single textual content block.  `runWrapped` is that callback; the
mutable global is passed explicitly as `glob` (its value at call time), and
`ctxClient` is `_context && _context.client`.  The `console.error` log in the
catch branch is I/O only and is not modelled. -/

/-- A raw tool handler `(params, client) => Promise<any>`: returns a JSON
value or throws.  The client may be `undefined` at run time, hence `Option`. -/
def RawHandler : Type :=
  Json → Option DataForSeoClient → Except Thrown Json

/-- `(_context && _context.client) || globalThis.__dataForSeoClient`. -/
def resolveClient (ctxClient glob : Option DataForSeoClient) :
    Option DataForSeoClient :=
  match ctxClient with
  | some c => some c
  | none => glob

/-- The wrapped callback `registerTool` installs: the body of the
`async (params, _context) => ...` closure in `src/api/tools.ts`. -/
def runWrapped (handler : RawHandler) (glob : Option DataForSeoClient)
    (params : Json) (ctxClient : Option DataForSeoClient) : ToolResult :=
  let clientInstance := resolveClient ctxClient glob
  match handler params clientInstance with
  | .ok result =>
      ⟨[⟨"text", jsonStringify2 result⟩]⟩
  | .error (.jsError message stack) =>
      ⟨[⟨"text", jsonStringify2 (.obj
          (("error", .str message) ::
            (match stack with
             | some st => [("stack", .str st)]
             | none => [])))⟩]⟩
  | .error (.other v) =>
      ⟨[⟨"text", jsonStringify2 (.obj
          (("error", .str "Unknown error occurred") ::
            (match v with
             | some d => [("details", d)]
             | none => [])))⟩]⟩

/-! ### The MCP SDK server and `registerTaskTool` -/

/-- A Zod field validator as used in the raw shape objects of
`src/api/tools.ts` (`z.string()` is the only shape the task helper needs;
other validators appear only inside opaque `postSchema` values). -/
inductive ZodField where
  | string
  | number
  | boolean
  | array (elem : ZodField)
  | optional (inner : ZodField)
  | any

/-- A tool input schema as passed to `server.tool`: a raw shape object
mapping argument names to Zod validators (`{}` is the empty shape). -/
inductive RawSchema where
  | shape (fields : List (String × ZodField))

/-- One tool as registered on the MCP SDK server object: name, input schema
and the wrapped callback.  The callback's first argument is the value of the
process-wide client global at call time. -/
structure SdkEntry where
  name : String
  schema : RawSchema
  callback : Option DataForSeoClient → Json → Option DataForSeoClient → ToolResult

/-- `server.tool(name, schema, cb)`: appends one tool to the server. -/
def serverTool (s : List SdkEntry) (name : String) (schema : RawSchema)
    (cb : Option DataForSeoClient → Json → Option DataForSeoClient → ToolResult) :
    List SdkEntry :=
  s ++ [⟨name, schema, cb⟩]

/-- `registerTool(server, name, schema, handler)` from `src/api/tools.ts`. -/
def registerTool (s : List SdkEntry) (name : String) (schema : RawSchema)
    (handler : RawHandler) : List SdkEntry :=
  serverTool s name schema (fun glob params ctxClient =>
    runWrapped handler glob params ctxClient)

/-- `registerTaskTool(server, baseName, postSchema, postHandler,
readyHandler, getHandler)` from `src/api/tools.ts`: registers the
`_post`/`_ready`/`_get` triple. -/
def registerTaskTool (s : List SdkEntry) (baseName : String)
    (postSchema : RawSchema) (postHandler : RawHandler)
    (readyHandler : Option DataForSeoClient → Except Thrown Json)
    (getHandler : Option Json → Option DataForSeoClient → Except Thrown Json) :
    List SdkEntry :=
  let s1 := registerTool s (baseName ++ "_post") postSchema postHandler
  let s2 := registerTool s1 (baseName ++ "_ready") (.shape [])
    (fun _params client => readyHandler client)
  registerTool s2 (baseName ++ "_get") (.shape [("id", .string)])
    (fun params client => getHandler (jsField params "id") client)

/-! ### The HTTP bridge's tool registry (src/server-http.ts)

`server-http.ts` reads a process-wide `toolRegistry : Map<string, entry>`
whose entries hold `{name, description, inputSchema, handler}`.  The
`inputSchema` stored there is a Zod value that `getToolsList` immediately
converts with the external `zod-to-json-schema` library; since that library
is a third-party dependency, an entry here carries the converter's output
`zodJsonSchema` (always a JSON object) directly.  The stored `handler` is an
arbitrary async function of the raw arguments (for entries produced by
`registerTool` it is the wrapped callback, which the HTTP bridge invokes with
an empty `{}` context). -/

/-- One value of the HTTP bridge's `toolRegistry` map. -/
structure RegEntry where
  name : String
  description : Option String
  zodJsonSchema : List (String × Json)
  handler : Option (Json → Except Thrown Json)

/-- `toolRegistry.get(name)` (the map is keyed by `entry.name`). -/
def regLookup (reg : List RegEntry) (s : String) : Option RegEntry :=
  reg.find? (fun e => e.name = s)

/-! ### Schema translation in `getToolsList` -/

/-- The key named by a `$ref` value: the last segment of its `/`-split. -/
def refKeyOf (r : String) : String :=
  (r.splitOn "/").getLastD ""

/-- `{...v}`: spreading a JSON value into a fresh object (a non-object
spreads to no fields; the converter's `definitions` entries are objects). -/
def spreadFields : Json → List (String × Json)
  | .obj fields => fields
  | _ => []

/-- `if (o[k]) delete o[k]` — the guarded deletes in `getToolsList`. -/
def deleteIfTruthy (fields : List (String × Json)) (k : String) :
    List (String × Json) :=
  if jsTruthyOpt (jsGetField fields k) then deleteField fields k else fields

/-- The `$ref`/`definitions` inlining and cleanup in `getToolsList`: when the
converter returned an indirect `$ref` into `definitions`, replace the schema
by a copy of the referenced definition, then drop any (truthy) `$ref` and
`definitions` members. -/
def extractSchema (full : List (String × Json)) : List (String × Json) :=
  let base :=
    match jsGetField full "$ref", jsGetField full "definitions" with
    | some (.str r), some defs =>
      if r ≠ "" ∧ jsTruthy defs then
        let key := refKeyOf r
        if key ≠ "" then
          match jsField defs key with
          | some dv => if jsTruthy dv then spreadFields dv else full
          | none => full
        else full
      else full
    | _, _ => full
  deleteIfTruthy (deleteIfTruthy base "$ref") "definitions"

/-- Does an object have `type === 'array'` and a falsy `items`? -/
def isArrayNoItems (fields : List (String × Json)) : Bool :=
  (match jsGetField fields "type" with
   | some (.str t) => t = "array"
   | _ => false) &&
  !jsTruthyOpt (jsGetField fields "items")

/-- The per-property array fix: an array-typed property without `items`
receives `items: {type: "string"}`. -/
def fixArrayProp (v : Json) : Json :=
  match v with
  | .obj fields =>
    if isArrayNoItems fields then
      .obj (setField fields "items" (.obj [("type", .str "string")]))
    else .obj fields
  | w => w

/-- The `for (const [propName, propSchema] of Object.entries(...))` loop:
applies `fixArrayProp` to every direct member of `properties`.  Properties of
nested sub-schemas are not visited. -/
def fixArraysInSchema (s : List (String × Json)) : List (String × Json) :=
  match jsGetField s "properties" with
  | some (.obj props) =>
    setField s "properties"
      (.obj (props.map (fun p => (p.1, fixArrayProp p.2))))
  | _ => s

/-- The whole per-tool schema translation performed by `getToolsList` on the
`zod-to-json-schema` output. -/
def translateSchema (full : List (String × Json)) : List (String × Json) :=
  fixArraysInSchema (extractSchema full)

/-- One element of the list `getToolsList` returns. -/
structure ListedTool where
  name : String
  description : String
  inputSchema : List (String × Json)

/-- `tool.description || `DataForSEO API tool: ${tool.name}``. -/
def defaultedDescription (d : Option String) (name : String) : String :=
  match d with
  | some s => if s = "" then "DataForSEO API tool: " ++ name else s
  | none => "DataForSEO API tool: " ++ name

/-- The `{name, description, inputSchema}` object `getToolsList` builds for
one registry entry. -/
def listView (e : RegEntry) : ListedTool :=
  { name := e.name
  , description := defaultedDescription e.description e.name
  , inputSchema := translateSchema e.zodJsonSchema }

/-- `getToolsList()` from `src/server-http.ts` (the `console.log` is I/O only
and not modelled). -/
def getToolsList (reg : List RegEntry) : List ListedTool :=
  reg.map listView

/-- The JSON object one listed tool serializes to. -/
def listedToolJson (t : ListedTool) : Json :=
  .obj [("name", .str t.name), ("description", .str t.description),
        ("inputSchema", .obj t.inputSchema)]

/-- The JSON array carried under `result.tools` by both listing endpoints. -/
def toolsListJson (reg : List RegEntry) : Json :=
  .arr ((getToolsList reg).map listedToolJson)

/-! ### The `POST /mcp` JSON-RPC dispatcher -/

/-- The destructured `req.body`: `const { jsonrpc, method, params, id }`.
`none` models an absent field. -/
structure McpRequest where
  jsonrpc : Option Json
  method : Option Json
  params : Option Json
  id : Option Json

/-- An HTTP response: status code plus the JSON body `res.json` sends. -/
structure HttpResponse where
  status : Nat
  body : Json

/-- `id || null` (used by the `-32600` branch). -/
def jsOrNull (v : Option Json) : Json :=
  match v with
  | some j => if jsTruthy j then j else .null
  | none => .null

/-- The `id` member of a response object: present iff the request carried an
`id` (an `undefined` member is dropped by `res.json`). -/
def optIdField (id : Option Json) : List (String × Json) :=
  match id with
  | some j => [("id", j)]
  | none => []

/-- `jsonrpc === '2.0'`. -/
def isVersion2 : Option Json → Bool
  | some (.str s) => s = "2.0"
  | _ => false

/-- `error.message` of a thrown value (`undefined` for message-less values,
the `message` member for thrown plain objects). -/
def thrownMessage : Thrown → Option Json
  | .jsError m _ => some (.str m)
  | .other (some (.obj fields)) => jsGetField fields "message"
  | .other _ => none

/-- A 200 response `{jsonrpc: '2.0', result, id}`. -/
def resp200 (result : Json) (id : Option Json) : HttpResponse :=
  ⟨200, .obj ([("jsonrpc", .str "2.0"), ("result", result)] ++ optIdField id)⟩

/-- An error response `{jsonrpc: '2.0', error: {code, message}, id}` with the
given HTTP status; a `message` of `none` (JavaScript `undefined`) is dropped
from the serialized body. -/
def respErr (status : Nat) (code : Int) (message : Option Json)
    (id : Option Json) : HttpResponse :=
  ⟨status, .obj ([("jsonrpc", .str "2.0"),
      ("error", .obj (("code", .num code) ::
        (match message with
         | some m => [("message", m)]
         | none => [])))] ++ optIdField id)⟩

/-- The `-32600` invalid-request response (its `id` is `id || null`). -/
def invalidResp (id : Option Json) : HttpResponse :=
  ⟨400, .obj [("jsonrpc", .str "2.0"),
      ("error", .obj [("code", .num (-32600)), ("message", .str "Invalid Request")]),
      ("id", jsOrNull id)]⟩

/-- The `initialize` result payload. -/
def initializeResult : Json :=
  .obj [("protocolVersion", .str "2024-11-05"),
        ("capabilities", .obj [("tools", .obj [])]),
        ("serverInfo", .obj [("name", .str "DataForSEO MCP Server"),
                             ("version", .str "1.0.0")])]

/-- `params.arguments || {}`. -/
def argsOf (params : Option Json) : Json :=
  match params.bind (fun p => jsField p "arguments") with
  | some a => if jsTruthy a then a else .obj []
  | none => .obj []

/-- `toolRegistry.get(params.name)` followed by the `!tool || !tool.handler`
check: the stored handler, if the name keys a registry entry carrying one
(`Map.get` on the string-keyed registry misses every non-string name). -/
def lookupHandler (reg : List RegEntry) : Json → Option (Json → Except Thrown Json)
  | .str s => (regLookup reg s).bind (fun e => e.handler)
  | _ => none

/-- The `tools/call` case of the dispatcher, including its inner
`try`/`catch` that maps a thrown handler error to `-32603`. -/
def toolsCall (reg : List RegEntry) (req : McpRequest) : HttpResponse :=
  let name? := req.params.bind (fun p => jsField p "name")
  if !jsTruthyOpt name? then
    respErr 400 (-32602) (some (.str "Missing tool name")) req.id
  else
    match name? with
    | some nj =>
      match lookupHandler reg nj with
      | none =>
        respErr 404 (-32601)
          (some (.str ("Tool not found: " ++ jsToString nj))) req.id
      | some h =>
        match h (argsOf req.params) with
        | .ok result => resp200 result req.id
        | .error t => respErr 500 (-32603) (thrownMessage t) req.id
    | none =>
      -- unreachable: a truthy `params?.name` is in particular present
      respErr 404 (-32601)
        (some (.str "Tool not found: undefined")) req.id

/-- The `switch (method)` dispatch of `app.post('/mcp')`, after the
`jsonrpc` version check has passed. -/
def dispatchMcp (reg : List RegEntry) (req : McpRequest) : HttpResponse :=
  match req.method with
  | some (.str "initialize") => resp200 initializeResult req.id
  | some (.str "tools/list") =>
      resp200 (.obj [("tools", toolsListJson reg)]) req.id
  | some (.str "tools/call") => toolsCall reg req
  | m =>
      respErr 404 (-32601)
        (some (.str ("Method not found: " ++
          (match m with
           | some v => jsToString v
           | none => "undefined")))) req.id

/-- `app.post('/mcp')` from `src/server-http.ts`, in the normal operating
state: the process pre-initializes the MCP server and registry at startup
(with the required credentials present), so `getMcpServer()` returns without
throwing and the outer `catch` is not exercised by the modelled branches. -/
def handleMcp (reg : List RegEntry) (req : McpRequest) : HttpResponse :=
  if isVersion2 req.jsonrpc then dispatchMcp reg req else invalidResp req.id

/-- `app.get('/tools')` from `src/server-http.ts`. -/
def handleGetTools (reg : List RegEntry) : HttpResponse :=
  ⟨200, .obj [("jsonrpc", .str "2.0"),
              ("result", .obj [("tools", toolsListJson reg)])]⟩

/-- The `id` member of a response body (`none` when the field is absent). -/
def respIdField (r : HttpResponse) : Option Json :=
  match r.body with
  | .obj fields => jsGetField fields "id"
  | _ => none

/-! ## Theorems -/

/-- The `error` message the wrapper's catch branch reports for a thrown
value: `error.message` for `Error` instances, the fixed fallback otherwise. -/
def thrownErrMessage : Thrown → String
  | .jsError m _ => m
  | .other _ => "Unknown error occurred"

/-- The additional diagnostic members of the wrapper's error payload:
`stack` for an `Error` carrying one, `details` for a non-`Error` thrown
value that is not `undefined`. -/
def thrownExtraFields : Thrown → List (String × Json)
  | .jsError _ (some st) => [("stack", .str st)]
  | .jsError _ none => []
  | .other (some d) => [("details", d)]
  | .other none => []

/-- **C1.** For every registered tool and every invocation of its wrapped
handler, if the inner handler throws, the wrapper catches the error and
returns a content result with a single textual block whose text is the JSON
serialization of an object whose first member is `error` with the error's
message (followed by `stack` when a thrown `Error` carries one, or `details`
for other carried values).  `runWrapped` — the wrapped callable installed by
`registerTool` — is a total function into `ToolResult`, so the exception is
never propagated out of it. -/
theorem runWrapped_catches_errors (handler : RawHandler)
    (glob ctxClient : Option DataForSeoClient) (params : Json) (t : Thrown)
    (h : handler params (resolveClient ctxClient glob) = .error t) :
    runWrapped handler glob params ctxClient =
      ⟨[⟨"text",
        jsonStringify2
          (.obj (("error", .str (thrownErrMessage t)) :: thrownExtraFields t))⟩]⟩ := by
  cases t with
  | jsError m st =>
    cases st <;> simp [runWrapped, h, thrownErrMessage, thrownExtraFields]
  | other v =>
    cases v <;> simp [runWrapped, h, thrownErrMessage, thrownExtraFields]

/-- A handler that always throws `new Error("boom")` with a stack trace. -/
def boomHandler : RawHandler :=
  fun _ _ => .error (.jsError "boom" (some "trace"))

/-- Witness: the wrapper converts `boomHandler`'s exception to an error
content block at a concrete invocation. -/
theorem runWrapped_catches_errors_witness :
    runWrapped boomHandler none (.obj []) none =
      ⟨[⟨"text",
        jsonStringify2
          (.obj (("error", .str (thrownErrMessage (.jsError "boom" (some "trace")))) ::
            thrownExtraFields (.jsError "boom" (some "trace"))))⟩]⟩ :=
  runWrapped_catches_errors boomHandler none none (.obj [])
    (.jsError "boom" (some "trace")) rfl

/-- **C6 (amended).** For every handler returning successfully with value
`v`, the wrapped callable returns exactly one content block of type `text`
whose text is `JSON.stringify(v, null, 2)` — the two-space pretty-printed
serialization of `v`, not the compact canonical one. -/
theorem runWrapped_success_pretty (handler : RawHandler)
    (glob ctxClient : Option DataForSeoClient) (params v : Json)
    (h : handler params (resolveClient ctxClient glob) = .ok v) :
    runWrapped handler glob params ctxClient = ⟨[⟨"text", jsonStringify2 v⟩]⟩ := by
  simp [runWrapped, h]

/-- A handler that returns `{"done": true}`. -/
def doneHandler : RawHandler :=
  fun _ _ => .ok (.obj [("done", .bool true)])

/-- Witness: the success wrapping at a concrete handler and invocation. -/
theorem runWrapped_success_pretty_witness :
    runWrapped doneHandler none (.obj []) none =
      ⟨[⟨"text", jsonStringify2 (.obj [("done", .bool true)])⟩]⟩ :=
  runWrapped_success_pretty doneHandler none none (.obj [])
    (.obj [("done", .bool true)]) rfl

/-- The stub provider behaviour of the spec's end-to-end example: a
`getHandler` that returns `{"done": true}` for id `"123"`. -/
def stubGetHandler : Option Json → Option DataForSeoClient → Except Thrown Json
  | some (.str "123"), _ => .ok (.obj [("done", .bool true)])
  | _, _ => .ok .null

/-- The raw handler `registerTaskTool` registers for `x_get` over the stub. -/
def xGetRawHandler : RawHandler :=
  fun params client => stubGetHandler (jsField params "id") client

/-- The `toolRegistry` entry for `x_get`: its stored handler is the wrapped
callable (invoked by the HTTP bridge with the empty `{}` context). -/
def xGetEntry : RegEntry :=
  { name := "x_get"
  , description := none
  , zodJsonSchema := []
  , handler := some (fun args =>
      .ok (toolResultJson (runWrapped xGetRawHandler none args none))) }

/-- The exact `POST /mcp` request of the spec's end-to-end example. -/
def xGetRequest : McpRequest :=
  { jsonrpc := some (.str "2.0")
  , method := some (.str "tools/call")
  , params := some (.obj [("name", .str "x_get"),
      ("arguments", .obj [("id", .str "123")])])
  , id := some (.num 1) }

/-- **C6 counterexample.** Running the spec's end-to-end example against the
stub provider produces a single text block whose text is the two-space
pretty-printed serialization `"\x7b\n  \"done\": true\n\x7d"`, which is not
the compact string `"\x7b\"done\":true\x7d"` the claim asserts. -/
theorem toolsCall_xget_text_not_compact :
    handleMcp [xGetEntry] xGetRequest =
      ⟨200, .obj [("jsonrpc", .str "2.0"),
        ("result", .obj [("content",
          .arr [.obj [("type", .str "text"),
            ("text", .str "\x7b\n  \"done\": true\n\x7d")]])]),
        ("id", .num 1)]⟩ ∧
    "\x7b\n  \"done\": true\n\x7d" ≠ "\x7b\"done\":true\x7d" := by
  constructor
  · simp [handleMcp, dispatchMcp, toolsCall, isVersion2, xGetEntry, xGetRequest,
      lookupHandler, regLookup, argsOf, jsField, jsGetField, jsTruthyOpt,
      jsTruthy, resp200, optIdField, toolResultJson, contentBlockJson,
      runWrapped, xGetRawHandler, stubGetHandler, resolveClient, jsonStringify2,
      stringifyAt, stringifyMems, jquote, escChar, pad]
    rfl
  · decide

/-- **C7.** `registerTaskTool("x", ...)` registers exactly three tools named
`x_post`, `x_ready` and `x_get`: `x_post` carries the supplied post schema
and (wrapped) post handler; `x_ready` carries the empty schema and a handler
whose behaviour ignores the parameters; `x_get` carries the schema
`{ id: string }` and a handler that invokes the supplied `getHandler` on
`params.id`. -/
theorem registerTaskTool_three_tools (s : List SdkEntry) (base : String)
    (postSchema : RawSchema) (postHandler : RawHandler)
    (readyHandler : Option DataForSeoClient → Except Thrown Json)
    (getHandler : Option Json → Option DataForSeoClient → Except Thrown Json) :
    registerTaskTool s base postSchema postHandler readyHandler getHandler =
      s ++
        [⟨base ++ "_post", postSchema,
          fun glob params ctxClient => runWrapped postHandler glob params ctxClient⟩,
         ⟨base ++ "_ready", .shape [],
          fun glob params ctxClient =>
            runWrapped (fun _params client => readyHandler client) glob params ctxClient⟩,
         ⟨base ++ "_get", .shape [("id", .string)],
          fun glob params ctxClient =>
            runWrapped (fun q client => getHandler (jsField q "id") client)
              glob params ctxClient⟩] ∧
    (∀ glob params params' ctxClient,
      runWrapped (fun _p client => readyHandler client) glob params ctxClient =
        runWrapped (fun _p client => readyHandler client) glob params' ctxClient) := by
  constructor
  · simp [registerTaskTool, registerTool, serverTool]
  · intro glob params params' ctxClient
    rfl

/-! ### The `id` echo policy of the bridge -/

/-- A success response carries exactly the request's `id` member. -/
theorem respIdField_resp200 (result : Json) (id : Option Json) :
    respIdField (resp200 result id) = id := by
  cases id <;> rfl

/-- An error response carries exactly the request's `id` member. -/
theorem respIdField_respErr (status : Nat) (code : Int) (message : Option Json)
    (id : Option Json) : respIdField (respErr status code message id) = id := by
  cases id <;> cases message <;> rfl

/-- The invalid-request response carries `id || null`. -/
theorem respIdField_invalidResp (id : Option Json) :
    respIdField (invalidResp id) = some (jsOrNull id) := rfl

/-- Every `tools/call` response echoes the request's `id` member. -/
theorem respIdField_toolsCall (reg : List RegEntry) (req : McpRequest) :
    respIdField (toolsCall reg req) = req.id := by
  unfold toolsCall
  dsimp only
  split
  · exact respIdField_respErr _ _ _ _
  · split
    · split
      · exact respIdField_respErr _ _ _ _
      · split
        · exact respIdField_resp200 _ _
        · exact respIdField_respErr _ _ _ _
    · exact respIdField_respErr _ _ _ _

/-- Every dispatched (version-checked) response echoes the request's `id`. -/
theorem respIdField_dispatchMcp (reg : List RegEntry) (req : McpRequest) :
    respIdField (dispatchMcp reg req) = req.id := by
  unfold dispatchMcp
  split
  · exact respIdField_resp200 _ _
  · exact respIdField_resp200 _ _
  · exact respIdField_toolsCall reg req
  · exact respIdField_respErr _ _ _ _

/-- **C5 (amended).** On the `initialize`, `tools/list` and `tools/call`
branches the response body's `id` member is exactly the request's `id`
member: present and unchanged whenever the request carried one (including
`null`, `0` or `""`), and absent — not `null` — when the request carried
none.  Only the `-32600` invalid-request branch substitutes `id || null`,
which replaces a falsy caller id (absent, `null`, `false`, `0`, `""`) by
`null`. -/
theorem response_id_policy (reg : List RegEntry) (req : McpRequest) :
    respIdField (handleMcp reg req) =
      (if isVersion2 req.jsonrpc then req.id else some (jsOrNull req.id)) := by
  by_cases hv : isVersion2 req.jsonrpc <;>
    simp [handleMcp, hv, respIdField_dispatchMcp, respIdField_invalidResp]

/-- An `initialize` request without an `id`. -/
def noIdInitRequest : McpRequest :=
  { jsonrpc := some (.str "2.0"), method := some (.str "initialize")
  , params := none, id := none }

/-- A request with the wrong protocol version and the (valid, falsy)
JSON-RPC id `0`. -/
def zeroIdBadVersionRequest : McpRequest :=
  { jsonrpc := some (.str "1.0"), method := some (.str "tools/list")
  , params := none, id := some (.num 0) }

/-- **C5 counterexample.** An id-less `initialize` request yields a response
with no `id` member at all (the claim says it should be `null`), and a
request with id `0` and a bad `jsonrpc` yields `id: null` (the claim says
the id is carried back unchanged). -/
theorem response_id_deviations :
    respIdField (handleMcp [] noIdInitRequest) = none ∧
    (none : Option Json) ≠ some Json.null ∧
    respIdField (handleMcp [] zeroIdBadVersionRequest) = some Json.null ∧
    some Json.null ≠ some (Json.num 0) := by
  refine ⟨rfl, ?_, rfl, ?_⟩
  · intro h
    exact Option.noConfusion h
  · intro h
    exact Json.noConfusion (Option.some.inj h)

/-! ### Error dispatch of `POST /mcp` -/

/-- **C4.** A request whose `jsonrpc` member is not the literal string
`"2.0"` is answered with HTTP 400 and JSON-RPC error code `-32600`, and the
response is computed identically for every registry state — the rejection
happens before any registry lookup. -/
theorem invalid_version_rejected (reg reg' : List RegEntry) (req : McpRequest)
    (h : isVersion2 req.jsonrpc = false) :
    handleMcp reg req = invalidResp req.id ∧
    handleMcp reg req = handleMcp reg' req ∧
    (handleMcp reg req).status = 400 ∧
    jsPath (handleMcp reg req).body ["error", "code"] = some (.num (-32600)) := by
  have e : ∀ r : List RegEntry, handleMcp r req = invalidResp req.id := by
    intro r
    simp [handleMcp, h]
  refine ⟨e reg, (e reg).trans (e reg').symm, ?_, ?_⟩
  · rw [e reg]
    rfl
  · rw [e reg]
    rfl

/-- A request carrying `jsonrpc: "1.0"`. -/
def wrongVersionRequest : McpRequest :=
  { jsonrpc := some (.str "1.0"), method := some (.str "tools/call")
  , params := some (.obj [("name", .str "x_get")]), id := some (.num 3) }

/-- Witness: the `-32600` rejection at a concrete request, compared across
two different registry states. -/
theorem invalid_version_rejected_witness :
    handleMcp [] wrongVersionRequest = invalidResp (some (.num 3)) ∧
    handleMcp [] wrongVersionRequest = handleMcp [xGetEntry] wrongVersionRequest ∧
    (handleMcp [] wrongVersionRequest).status = 400 ∧
    jsPath (handleMcp [] wrongVersionRequest).body ["error", "code"] =
      some (.num (-32600)) :=
  invalid_version_rejected [] [xGetEntry] wrongVersionRequest rfl

/-- **C2.** A `tools/call` request whose `params.name` is present (a truthy
value, i.e. one that passes the bridge's `!params?.name` check) but does not
resolve to a registry entry carrying a handler is answered with HTTP 404 and
JSON-RPC error code `-32601`; the dispatcher is a total function, so no
exception escapes the request handler. -/
theorem unknown_tool_404 (reg : List RegEntry) (req : McpRequest)
    (p nj : Json)
    (hv : isVersion2 req.jsonrpc = true)
    (hm : req.method = some (.str "tools/call"))
    (hp : req.params = some p)
    (hn : jsField p "name" = some nj)
    (ht : jsTruthy nj = true)
    (hmiss : lookupHandler reg nj = none) :
    handleMcp reg req =
      respErr 404 (-32601)
        (some (.str ("Tool not found: " ++ jsToString nj))) req.id := by
  simp [handleMcp, hv, dispatchMcp, hm, toolsCall, hp, hn, jsTruthyOpt, ht, hmiss]

/-- A `tools/call` request naming a tool absent from the registry. -/
def unknownToolRequest : McpRequest :=
  { jsonrpc := some (.str "2.0"), method := some (.str "tools/call")
  , params := some (.obj [("name", .str "nope")]), id := some (.num 7) }

/-- Witness: calling the unregistered tool `nope` against the empty
registry. -/
theorem unknown_tool_404_witness :
    handleMcp [] unknownToolRequest =
      respErr 404 (-32601)
        (some (.str ("Tool not found: " ++ jsToString (.str "nope"))))
        (some (.num 7)) :=
  unknown_tool_404 [] unknownToolRequest (.obj [("name", .str "nope")])
    (.str "nope") rfl rfl rfl rfl rfl rfl

/-- **C3.** A `tools/call` request naming a registered tool whose stored
handler throws an `Error` during invocation is answered with HTTP 500 and a
well-formed JSON-RPC error of code `-32603` carrying the error's message.
The dispatcher is a pure total function of the read-only registry, so
handling the throwing call leaves the registry unchanged and every
subsequent request is served by the same function — the process keeps
serving. -/
theorem handler_throw_500 (reg : List RegEntry) (req : McpRequest)
    (p nj : Json) (h : Json → Except Thrown Json) (m : String)
    (st : Option String)
    (hv : isVersion2 req.jsonrpc = true)
    (hm : req.method = some (.str "tools/call"))
    (hp : req.params = some p)
    (hn : jsField p "name" = some nj)
    (ht : jsTruthy nj = true)
    (hh : lookupHandler reg nj = some h)
    (hthrow : h (argsOf (some p)) = .error (.jsError m st)) :
    handleMcp reg req = respErr 500 (-32603) (some (.str m)) req.id := by
  simp [handleMcp, hv, dispatchMcp, hm, toolsCall, hp, hn, jsTruthyOpt, ht, hh,
    hthrow, thrownMessage]

/-- A registry entry whose stored handler always throws
`new Error("kaboom")`. -/
def throwEntry : RegEntry :=
  { name := "explode"
  , description := none
  , zodJsonSchema := []
  , handler := some (fun _ => .error (.jsError "kaboom" none)) }

/-- A `tools/call` request naming the throwing tool. -/
def throwRequest : McpRequest :=
  { jsonrpc := some (.str "2.0"), method := some (.str "tools/call")
  , params := some (.obj [("name", .str "explode")]), id := some (.num 2) }

/-- Witness: the throwing tool yields the 500/`-32603` response with the
thrown message. -/
theorem handler_throw_500_witness :
    handleMcp [throwEntry] throwRequest =
      respErr 500 (-32603) (some (.str "kaboom")) (some (.num 2)) :=
  handler_throw_500 [throwEntry] throwRequest (.obj [("name", .str "explode")])
    (.str "explode") (fun _ => .error (.jsError "kaboom" none)) "kaboom" none
    rfl rfl rfl rfl rfl rfl rfl

/-! ### The two listing endpoints -/

/-- **C9.** For every registry state, the JSON-RPC `tools/list` method and
the `GET /tools` endpoint carry the identical tools array (both are built by
the one `getToolsList`), so they return the identical set of tool names; and
every listed tool's `inputSchema` member is a JSON object — never `null`. -/
theorem toolsList_endpoints_agree (reg : List RegEntry) (req : McpRequest)
    (hv : isVersion2 req.jsonrpc = true)
    (hm : req.method = some (.str "tools/list")) :
    handleMcp reg req = resp200 (.obj [("tools", toolsListJson reg)]) req.id ∧
    handleGetTools reg =
      ⟨200, .obj [("jsonrpc", .str "2.0"),
        ("result", .obj [("tools", toolsListJson reg)])]⟩ ∧
    ∀ t ∈ getToolsList reg,
      jsField (listedToolJson t) "inputSchema" = some (.obj t.inputSchema) ∧
      Json.obj t.inputSchema ≠ Json.null := by
  refine ⟨?_, rfl, ?_⟩
  · simp [handleMcp, hv, dispatchMcp, hm]
  · intro t _
    exact ⟨rfl, fun h => Json.noConfusion h⟩

/-- A well-formed `tools/list` request. -/
def toolsListRequest : McpRequest :=
  { jsonrpc := some (.str "2.0"), method := some (.str "tools/list")
  , params := none, id := some (.num 5) }

/-- Witness: both listing endpoints over the one-entry registry
`[throwEntry]`. -/
theorem toolsList_endpoints_agree_witness :
    handleMcp [throwEntry] toolsListRequest =
      resp200 (.obj [("tools", toolsListJson [throwEntry])]) (some (.num 5)) ∧
    handleGetTools [throwEntry] =
      ⟨200, .obj [("jsonrpc", .str "2.0"),
        ("result", .obj [("tools", toolsListJson [throwEntry])])]⟩ ∧
    ∀ t ∈ getToolsList [throwEntry],
      jsField (listedToolJson t) "inputSchema" = some (.obj t.inputSchema) ∧
      Json.obj t.inputSchema ≠ Json.null :=
  toolsList_endpoints_agree [throwEntry] toolsListRequest rfl rfl

/-- The left summand of a string concatenation forces it nonempty. -/
theorem append_ne_empty_of_left (a b : String) (ha : a ≠ "") : a ++ b ≠ "" := by
  intro h
  apply ha
  have hd := congrArg String.data h
  rw [String.data_append] at hd
  exact String.ext ((List.append_eq_nil.mp hd).1)

/-- **C10.** Every entry listed by `tools/list` and `GET /tools` has a
non-empty description: an entry whose registered description is absent or
the empty string is listed with the description
`"DataForSEO API tool: " ++ name`. -/
theorem listed_description_never_empty (reg : List RegEntry) (e : RegEntry)
    (he : e ∈ reg) :
    listView e ∈ getToolsList reg ∧
    (listView e).description ≠ "" ∧
    ((e.description = none ∨ e.description = some "") →
      (listView e).description = "DataForSEO API tool: " ++ e.name) := by
  refine ⟨List.mem_map_of_mem listView he, ?_, ?_⟩
  · cases hd : e.description with
    | none =>
      show defaultedDescription e.description e.name ≠ ""
      rw [hd]
      exact append_ne_empty_of_left _ _ (by decide)
    | some s =>
      show defaultedDescription e.description e.name ≠ ""
      rw [hd]
      show (if s = "" then "DataForSEO API tool: " ++ e.name else s) ≠ ""
      by_cases hs : s = ""
      · rw [if_pos hs]
        exact append_ne_empty_of_left _ _ (by decide)
      · rw [if_neg hs]
        exact hs
  · intro h
    cases h with
    | inl h0 => simp [listView, defaultedDescription, h0]
    | inr h0 => simp [listView, defaultedDescription, h0]

/-- Witness: the defaulted description of `throwEntry` (whose registered
description is absent). -/
theorem listed_description_never_empty_witness :
    listView throwEntry ∈ getToolsList [throwEntry] ∧
    (listView throwEntry).description ≠ "" ∧
    ((throwEntry.description = none ∨ throwEntry.description = some "") →
      (listView throwEntry).description =
        "DataForSEO API tool: " ++ throwEntry.name) :=
  listed_description_never_empty [throwEntry] throwEntry (List.mem_singleton.mpr rfl)

/-! ### Schema translation and the array-`items` fix -/

/-- Setting a field makes it readable. -/
theorem jsGetField_setField_self (fs : List (String × Json)) (k : String)
    (v : Json) : jsGetField (setField fs k v) k = some v := by
  induction fs with
  | nil => simp [setField, jsGetField]
  | cons hd tl ih =>
    obtain ⟨k', v'⟩ := hd
    by_cases h : k' = k
    · simp [setField, h, jsGetField]
    · simpa [setField, h, jsGetField] using ih

/-- Looking up a key after rewriting every value commutes with the rewrite. -/
theorem jsGetField_map_values (ps : List (String × Json)) (f : Json → Json)
    (k : String) :
    jsGetField (ps.map (fun p => (p.1, f p.2))) k = (jsGetField ps k).map f := by
  induction ps with
  | nil => rfl
  | cons hd tl ih =>
    obtain ⟨k', v'⟩ := hd
    by_cases h : k' = k
    · simp [jsGetField, h]
    · simpa [jsGetField, h] using ih

/-- The direct members of a schema's `properties` object, when it has one. -/
def schemaProps (s : List (String × Json)) : Option (List (String × Json)) :=
  match jsGetField s "properties" with
  | some (.obj ps) => some ps
  | _ => none

/-- Is a property value an object with `type === 'array'` and falsy
`items`? -/
def isArrayNoItemsJson : Json → Bool
  | .obj fields => isArrayNoItems fields
  | _ => false

/-- **C8 (amended).** For every tool schema, every *top-level* property —
every direct member of the translated schema's `properties` object — is the
array fix's image of the corresponding source property: an array-typed
top-level property always carries a truthy `items` sub-schema in the
translation, and one whose source omitted (or had a falsy) `items` receives
exactly `items: {type: "string"}`.  Properties of nested sub-schemas are not
visited by the fix. -/
theorem translate_fixes_toplevel_arrays (full ps : List (String × Json))
    (k : String) (v : Json)
    (hps : schemaProps (extractSchema full) = some ps)
    (hv : jsGetField ps k = some v) :
    schemaProps (translateSchema full) =
      some (ps.map (fun p => (p.1, fixArrayProp p.2))) ∧
    jsGetField (ps.map (fun p => (p.1, fixArrayProp p.2))) k =
      some (fixArrayProp v) ∧
    (jsField (fixArrayProp v) "type" = some (.str "array") →
      jsTruthyOpt (jsField (fixArrayProp v) "items") = true) ∧
    (isArrayNoItemsJson v = true →
      jsField (fixArrayProp v) "items" = some (.obj [("type", .str "string")])) := by
  have hfp : jsGetField (extractSchema full) "properties" = some (.obj ps) := by
    unfold schemaProps at hps
    revert hps
    cases hget : jsGetField (extractSchema full) "properties" with
    | none => intro hps; exact Option.noConfusion hps
    | some w =>
      cases w <;> intro hps <;> first
        | exact Option.noConfusion hps
        | rw [Option.some.inj hps]
  refine ⟨?_, ?_, ?_, ?_⟩
  · unfold translateSchema fixArraysInSchema
    rw [hfp]
    unfold schemaProps
    rw [jsGetField_setField_self]
  · rw [jsGetField_map_values, hv]
    rfl
  · cases v with
    | obj fields =>
      by_cases hA : isArrayNoItems fields = true
      · intro _
        simp [fixArrayProp, hA, jsField, jsGetField_setField_self, jsTruthyOpt,
          jsTruthy]
      · intro hty
        simp [fixArrayProp, hA, jsField] at hty ⊢
        unfold isArrayNoItems at hA
        rw [hty] at hA
        simpa using hA
    | null => intro hty; exact Option.noConfusion hty
    | bool b => intro hty; exact Option.noConfusion hty
    | num n => intro hty; exact Option.noConfusion hty
    | str s => intro hty; exact Option.noConfusion hty
    | arr xs => intro hty; exact Option.noConfusion hty
  · intro hA
    cases v with
    | obj fields =>
      simp [isArrayNoItemsJson] at hA
      simp [fixArrayProp, hA, jsField, jsGetField_setField_self]
    | null => exact Bool.noConfusion hA
    | bool b => exact Bool.noConfusion hA
    | num n => exact Bool.noConfusion hA
    | str s => exact Bool.noConfusion hA
    | arr xs => exact Bool.noConfusion hA

/-- A converter output declaring one top-level array property without
`items`. -/
def flatArraySchema : List (String × Json) :=
  [("properties", .obj [("tags", .obj [("type", .str "array")])])]

/-- Witness: the array fix at the concrete schema `flatArraySchema`. -/
theorem translate_fixes_toplevel_arrays_witness :
    schemaProps (translateSchema flatArraySchema) =
      some ([("tags", Json.obj [("type", .str "array")])].map
        (fun p => (p.1, fixArrayProp p.2))) ∧
    jsGetField ([("tags", Json.obj [("type", .str "array")])].map
        (fun p => (p.1, fixArrayProp p.2))) "tags" =
      some (fixArrayProp (.obj [("type", .str "array")])) ∧
    (jsField (fixArrayProp (.obj [("type", .str "array")])) "type" =
        some (.str "array") →
      jsTruthyOpt (jsField (fixArrayProp (.obj [("type", .str "array")]))
        "items") = true) ∧
    (isArrayNoItemsJson (.obj [("type", .str "array")]) = true →
      jsField (fixArrayProp (.obj [("type", .str "array")])) "items" =
        some (.obj [("type", .str "string")])) :=
  translate_fixes_toplevel_arrays flatArraySchema
    [("tags", Json.obj [("type", .str "array")])] "tags"
    (.obj [("type", .str "array")]) rfl rfl

/-- A converter output with a *nested* array property without `items`
(`properties.filters.properties.rules`) next to a top-level one
(`properties.tags`). -/
def nestedArraySchema : List (String × Json) :=
  [("properties", .obj
    [("filters", .obj [("type", .str "object"),
        ("properties", .obj [("rules", .obj [("type", .str "array")])])]),
     ("tags", .obj [("type", .str "array")])])]

/-- A registry entry whose converted schema is `nestedArraySchema`. -/
def nestedEntry : RegEntry :=
  { name := "nested_tool"
  , description := none
  , zodJsonSchema := nestedArraySchema
  , handler := some (fun _ => .ok .null) }

/-- The schema `getToolsList` publishes for `nestedEntry`. -/
def translatedNestedSchema : List (String × Json) :=
  [("properties", .obj
    [("filters", .obj [("type", .str "object"),
        ("properties", .obj [("rules", .obj [("type", .str "array")])])]),
     ("tags", .obj [("type", .str "array"),
        ("items", .obj [("type", .str "string")])])])]

/-- **C8 counterexample.** In the schema published for `nestedEntry`, the
nested property `properties.filters.properties.rules` has type `array` but
no `items` sub-schema — the fix visits only the top level (where `tags` does
receive `items: {type: "string"}`), refuting the claim for "every property
of type array" of the translated schema. -/
theorem translate_misses_nested_arrays :
    (getToolsList [nestedEntry]).map ListedTool.inputSchema =
      [translatedNestedSchema] ∧
    jsPath (.obj translatedNestedSchema) ["properties", "tags", "items"] =
      some (.obj [("type", .str "string")]) ∧
    jsPath (.obj translatedNestedSchema)
        ["properties", "filters", "properties", "rules", "type"] =
      some (.str "array") ∧
    jsPath (.obj translatedNestedSchema)
        ["properties", "filters", "properties", "rules", "items"] = none := by
  exact ⟨rfl, rfl, rfl, rfl⟩

end DataForSeoMcp
